import Mathlib

/-!
Verification of the Release Build & Upload Pipeline of `rid.finance`
(`src/tasks/buildAndUpload.ts` and `src/params.ts`).

The pipeline is shallowly embedded: the build directory is an association
list from file names to file contents, the Listr task list of
`buildAndUpload` becomes a sequence of explicit state-transforming stage
functions, and the utilities that are not part of the two source files
(container builder, upload backends, release-record store, compose and
manifest helpers) are modelled from the specification, as noted on each
definition.
-/

/-! ## Generic string helpers -/

/-- The character read at distance `i` from the end of a string
(`revChar s 0` is the last character). Used to separate the various
deterministic file names the pipeline writes. -/
def revChar (s : String) (i : Nat) : Option Char :=
  s.data.reverse.get? i

theorem ne_of_revChar (i : Nat) {s t : String} (h : revChar s i ≠ revChar t i) :
    s ≠ t :=
  fun he => h (he ▸ rfl)

theorem revChar_append (x t : String) (i : Nat) (h : i < t.data.length) :
    revChar (x ++ t) i = revChar t i := by
  unfold revChar
  rw [show (x ++ t).data = x.data ++ t.data from rfl, List.reverse_append]
  rw [List.get?_eq_getElem?, List.get?_eq_getElem?, List.getElem?_append_left]
  simpa using h

theorem append_ne_of_revChar (x t y : String) (i : Nat)
    (h1 : i < t.data.length) (h2 : revChar t i ≠ revChar y i) : x ++ t ≠ y := by
  apply ne_of_revChar i
  rw [revChar_append x t i h1]
  exact h2

theorem append_ne_append_of_revChar (x t y u : String) (i : Nat)
    (h1 : i < t.data.length) (h2 : i < u.data.length)
    (h3 : revChar t i ≠ revChar u i) : x ++ t ≠ y ++ u := by
  apply ne_of_revChar i
  rw [revChar_append x t i h1, revChar_append y u i h2]
  exact h3

/-- JavaScript truthiness of an optional string value (`undefined` and the
empty string are falsy). -/
def strTruthy : Option String → Bool
  | none => false
  | some s => s ≠ ""

/-- JavaScript `a || b` on optional string values. -/
def jsOrStr (a b : Option String) : Option String :=
  if strTruthy a then a else b

/-! ## `src/params.ts`: deterministic artifact names -/

/-- `getArchTag` from `params.ts`: `arch.replace(/\//g, "-")`. -/
def getArchTag (arch : String) : String :=
  String.mk (arch.data.map (fun c => if c = '/' then '-' else c))

/-- `getImagePath` from `params.ts`:
`` `${name}_${version}_${getArchTag(arch)}.txz` ``. -/
def getImagePath (name version arch : String) : String :=
  name ++ "_" ++ version ++ "_" ++ getArchTag arch ++ ".txz"

/-- `getLegacyImagePath` from `params.ts`: `` `${name}_${version}.tar.xz` ``. -/
def getLegacyImagePath (name version : String) : String :=
  name ++ "_" ++ version ++ ".tar.xz"

/-- `path.join(dir, file)` as used by `buildAndUpload.ts`; only the fact
that the result contains a path separator matters to the claims. -/
def pathJoin (d f : String) : String :=
  d ++ "/" ++ f

/-- The default names of the optional release assets, from
`releaseFiles` in `params.ts`. -/
def optionalAssetNames : List String :=
  ["setup-wizard.json", "setup.schema.json", "setup-target.json",
   "setup-ui.json", "disclaimer.md", "getting-started.md"]

/-! ## The build directory -/

/-- Content of a file in the build directory; the constructors track which
pipeline stage wrote the file. -/
inductive FData where
  | avatar (d : String)
  | compose (d : String)
  | manifestFile (name version : String) (upstreamVersion : Option String)
  | asset (d : String)
  | image (d : String)
deriving Repr, DecidableEq

/-- The build directory: an association list from file name to content
(first binding wins, mirroring a directory's unique file names). -/
abbrev FS := List (String × FData)

/-- Look up the content of a file. -/
def fsLookup (f : String) : FS → Option FData
  | [] => none
  | kv :: rest => if kv.1 = f then some kv.2 else fsLookup f rest

/-- Write (create or overwrite) a file. -/
def fsWrite (f : String) (d : FData) (fs : FS) : FS :=
  (f, d) :: fs.filter (fun kv => kv.1 ≠ f)

/-- The file names present in the directory. -/
def fsNames (fs : FS) : List String :=
  fs.map Prod.fst

theorem fsLookup_fsWrite_self (f : String) (d : FData) (fs : FS) :
    fsLookup f (fsWrite f d fs) = some d := by
  simp [fsLookup, fsWrite]

theorem fsLookup_filter_ne (f g : String) (fs : FS) (h : g ≠ f) :
    fsLookup g (fs.filter (fun kv => kv.1 ≠ f)) = fsLookup g fs := by
  induction fs with
  | nil => rfl
  | cons kv rest ih =>
    simp only [List.filter_cons]
    by_cases hk : kv.1 = f
    · have hg : kv.1 ≠ g := by rw [hk]; exact fun he => h he.symm
      rw [if_neg (by simp [hk])]
      rw [show fsLookup g (kv :: rest)
        = if kv.1 = g then some kv.2 else fsLookup g rest from rfl, if_neg hg]
      exact ih
    · rw [if_pos (by simp [hk])]
      show (if kv.1 = g then some kv.2 else _) = if kv.1 = g then some kv.2 else _
      by_cases hg : kv.1 = g
      · rw [if_pos hg, if_pos hg]
      · rw [if_neg hg, if_neg hg]; exact ih

theorem fsLookup_fsWrite_ne (f g : String) (d : FData) (fs : FS) (h : g ≠ f) :
    fsLookup g (fsWrite f d fs) = fsLookup g fs := by
  simp only [fsWrite, fsLookup]
  rw [if_neg (fun he => h he.symm)]
  exact fsLookup_filter_ne f g fs h

theorem fsLookup_filterKeys (p : String → Bool) (g : String) (fs : FS) :
    fsLookup g (fs.filter (fun kv => p kv.1))
      = if p g then fsLookup g fs else none := by
  induction fs with
  | nil => simp [fsLookup]
  | cons kv rest ih =>
    simp only [List.filter_cons]
    by_cases hg : kv.1 = g
    · subst hg
      by_cases hp : p kv.1
      · rw [if_pos (by simp [hp]), if_pos hp]
        show (if kv.1 = kv.1 then some kv.2 else _) = _
        rw [if_pos rfl]
        rw [show fsLookup kv.1 (kv :: rest)
          = if kv.1 = kv.1 then some kv.2 else fsLookup kv.1 rest from rfl,
          if_pos rfl]
      · rw [if_neg (by simp [hp]), ih, if_neg hp, if_neg hp]
    · by_cases hp : p kv.1
      · rw [if_pos (by simp [hp])]
        rw [show fsLookup g (kv :: rest.filter (fun kv => p kv.1))
          = if kv.1 = g then some kv.2
            else fsLookup g (rest.filter (fun kv => p kv.1)) from rfl,
          if_neg hg, ih]
        rw [show fsLookup g (kv :: rest)
          = if kv.1 = g then some kv.2 else fsLookup g rest from rfl, if_neg hg]
      · rw [if_neg (by simp [hp]), ih]
        rw [show fsLookup g (kv :: rest)
          = if kv.1 = g then some kv.2 else fsLookup g rest from rfl, if_neg hg]

/-! ## Data model -/

/-- The package manifest, restricted to the fields `buildAndUpload.ts`
reads. The forbidden legacy fields `image` and `avatar` are modelled from
the spec as optional string values (the code only tests their
truthiness). -/
structure Manifest where
  name : String
  version : String
  architectures : Option (List String) := none
  upstreamVersion : Option String := none
  image : Option String := none
  avatar : Option String := none
deriving Repr, DecidableEq

/-- The shared Listr run context (`ListrContextBuildAndPublish`). -/
structure RunCtx where
  releaseHash : Option String := none
  releaseMultiHash : Option String := none
deriving Repr, DecidableEq

/-- Modelled from the spec: one entry of the package directory's release
record store, the `{version → content address, backend identifier}`
mapping written by `addReleaseRecord` (whose source is not part of the
two embedded files). The hash is optional because the pipeline passes
`ctx.releaseHash`, which may be unset. -/
structure ReleaseRecordEntry where
  hash : Option String
  toProvider : String
deriving Repr, DecidableEq

/-- Modelled from the spec: `addReleaseRecord` persists the version's
entry into the record store (an update/overwrite mapping). -/
def addReleaseRecord (rec : List (String × ReleaseRecordEntry))
    (version : String) (hash : Option String) (toProvider : String) :
    List (String × ReleaseRecordEntry) :=
  (version, ⟨hash, toProvider⟩) :: rec.filter (fun kv => kv.1 ≠ version)

/-- The mutable state threaded through the pipeline's task list: the
build directory tree, the shared run context, the release record store,
and the log of caught (non-fatal) errors. -/
structure RunState where
  buildDir : FS
  ctx : RunCtx
  record : List (String × ReleaseRecordEntry)
  errorLog : List String
deriving Repr, DecidableEq

/-- All inputs of a `buildAndUpload` run: the CLI arguments of the
source function together with the outcomes of the external collaborators
that are modelled from the spec (compose upstream-version marker,
environment variable, avatar asset, prerelease validation, container
builder outputs, upload backend addresses, cache-pruning outcome) and
the pre-existing contents of the build directory and record store. -/
structure BuildInputs where
  manifest : Manifest
  buildDirPath : String
  ipfsProvider : String := "dappnode"
  swarmProvider : String := "dappnode"
  uploadToSwarm : Bool := false
  skipUpload : Bool := false
  composeUpstreamVersion : Option String := none
  envUpstreamVersion : Option String := none
  avatarAssetOk : Bool := true
  prereleaseValid : Bool := true
  avatarData : String := "avatar-bytes"
  releaseComposeData : String := "release-compose"
  setupWizard : Option String := none
  setupSchema : Option String := none
  setupTarget : Option String := none
  setupUiJson : Option String := none
  disclaimer : Option String := none
  gettingStarted : Option String := none
  buildOutput : String → String := fun a => "image-" ++ a
  composeBuildOutput : String := "image-default"
  ipfsHash : String := "/ipfs/Qm"
  swarmHash : String := "swarm-hash"
  pruneResult : Except String Unit := Except.ok ()
  initialFiles : FS := []
  initialRecord : List (String × ReleaseRecordEntry) := []

/-- The errors the embedded pipeline can raise. The first three are the
`CliError` (configuration error) throws of `buildAndUpload.ts`; the last
two stand for the fatal validation failures of the modelled helpers
(`verifyAvatar` / `getAssetPathRequired`, and
`validateManifest(..., {prerelease: true})`). -/
inductive PipeError where
  | manifestImageSet
  | manifestAvatarSet
  | uppercaseName
  | avatarAsset
  | validation
deriving Repr, DecidableEq

/-- The configuration errors (`CliError` in the source). -/
def PipeError.isConfigError : PipeError → Bool
  | .manifestImageSet => true
  | .manifestAvatarSet => true
  | .uppercaseName => true
  | _ => false

/-- `/[A-Z]/` character test of the uppercase-name check. -/
def isUpperAZ (c : Char) : Bool :=
  65 ≤ c.toNat && c.toNat ≤ 90

/-- `/[A-Z]/.test(name)`. -/
def hasUppercase (s : String) : Bool :=
  s.data.any isUpperAZ

/-! ## Setup phase of `buildAndUpload` (function body before the task list) -/

/-- The values computed by the body of `buildAndUpload` before it returns
the task list: names, paths, the expected-image branch selector, and the
finalized in-memory manifest with the injected upstream version. -/
structure BuildPlan where
  name : String
  version : String
  architectures : Option (List String)
  manifestFinal : Manifest
  imagePathAmd : String
  imagePathLegacy : String
  buildDirPath : String
  uploadToSwarm : Bool
  skipUpload : Bool
  ipfsProvider : String
  swarmProvider : String
deriving Repr, DecidableEq

/-- The body of `buildAndUpload` before the task list is returned:
the `manifest.image` / `manifest.avatar` configuration checks, the
uppercase-name check, the avatar asset lookup/verification (modelled from
the spec as a boolean outcome), and the upstream-version injection
`parseComposeUpstreamVersion(composeForDev) || process.env.UPSTREAM_VERSION`.
No file of the build directory is touched here. -/
def buildAndUploadSetup (a : BuildInputs) : Except PipeError BuildPlan :=
  let m := a.manifest
  if strTruthy m.image then .error .manifestImageSet
  else if strTruthy m.avatar then .error .manifestAvatarSet
  else if hasUppercase m.name then .error .uppercaseName
  else if !a.avatarAssetOk then .error .avatarAsset
  else
    let upstreamVersion := jsOrStr a.composeUpstreamVersion a.envUpstreamVersion
    let mFinal :=
      if strTruthy upstreamVersion then
        { m with upstreamVersion := upstreamVersion }
      else m
    .ok
      { name := m.name
        version := m.version
        architectures := m.architectures
        manifestFinal := mFinal
        imagePathAmd := pathJoin a.buildDirPath
          (getImagePath m.name m.version "linux/amd64")
        imagePathLegacy := pathJoin a.buildDirPath
          (getLegacyImagePath m.name m.version)
        buildDirPath := a.buildDirPath
        uploadToSwarm := a.uploadToSwarm
        skipUpload := a.skipUpload
        ipfsProvider := a.ipfsProvider
        swarmProvider := a.swarmProvider }

/-! ## The task list -/

/-- The expected-image list of the "Create release dir" task:
`architectures ? architectures.map(arch => getImagePath(name, version,
arch)) : [imagePathAmd]`. Note that the branch without declared
architectures puts the *joined path* `imagePathAmd` in the list, while
the declared branch puts bare file names. -/
def expectedImagePaths (p : BuildPlan) : List String :=
  match p.architectures with
  | some archs => archs.map (getImagePath p.name p.version)
  | none => [p.imagePathAmd]

/-- The "Create release dir" task: creates the directory and deletes
every entry whose name is not in `expectedImagePaths`. -/
def createReleaseDirTask (p : BuildPlan) (s : RunState) : RunState :=
  { s with buildDir :=
      s.buildDir.filter (fun kv => (expectedImagePaths p).contains kv.1) }

/-- Write an optional release asset if it is present. -/
def writeOpt (f : String) (d : Option String) (fs : FS) : FS :=
  match d with
  | some x => fsWrite f (.asset x) fs
  | none => fs

/-- The optional-assets loop of the "Copy files and validate" task, in
source order (setupWizard, setupSchema, setupTarget, setupUiJson,
disclaimer, gettingStarted), each copied to its default name when the
asset is present. -/
def writeOptionalAssets (a : BuildInputs) (fs : FS) : FS :=
  writeOpt "getting-started.md" a.gettingStarted
    (writeOpt "disclaimer.md" a.disclaimer
      (writeOpt "setup-ui.json" a.setupUiJson
        (writeOpt "setup-target.json" a.setupTarget
          (writeOpt "setup.schema.json" a.setupSchema
            (writeOpt "setup-wizard.json" a.setupWizard fs)))))

/-- The "Copy files and validate" task: copies the avatar, writes the
release composition and the finalized manifest into the build directory,
then validates the manifest in prerelease mode (modelled from the spec as
a boolean outcome; on failure the three files are already written), then
copies the optional assets. The write of the build composition to the
source directory is outside the build directory and not modelled. -/
def copyFilesTask (a : BuildInputs) (p : BuildPlan) (s : RunState) :
    RunState × Option PipeError :=
  let fs1 := fsWrite "dappnode_package.json"
    (.manifestFile p.manifestFinal.name p.manifestFinal.version
      p.manifestFinal.upstreamVersion)
    (fsWrite "docker-compose.yml" (.compose a.releaseComposeData)
      (fsWrite "avatar.png" (.avatar a.avatarData) s.buildDir))
  if a.prereleaseValid then
    ({ s with buildDir := writeOptionalAssets a fs1 }, none)
  else
    ({ s with buildDir := fs1 }, some .validation)

/-- Modelled from the spec: one `buildWithBuildx` per declared
architecture — the container builder produces a packed,
architecture-tagged image archive at the deterministic destination path
`path.join(buildDir, getImagePath(name, version, architecture))`. -/
def buildArchTask (a : BuildInputs) (p : BuildPlan) (arch : String)
    (s : RunState) : RunState :=
  let fs' := fsWrite (getImagePath p.name p.version arch)
    (.image (a.buildOutput arch)) s.buildDir
  { s with buildDir := fs' }

/-- Modelled from the spec: the single default-architecture
`buildWithCompose` path — the composition's native build mechanism writes
one archive to `destPath: imagePathAmd`, i.e. to the
`linux/amd64`-tagged deterministic file name inside the build
directory. -/
def buildComposeTask (a : BuildInputs) (p : BuildPlan) (s : RunState) :
    RunState :=
  let fs' := fsWrite (getImagePath p.name p.version "linux/amd64")
    (.image a.composeBuildOutput) s.buildDir
  { s with buildDir := fs' }

/-- The build stage: the per-architecture tasks when an architecture list
is declared (in list order), otherwise the single `buildWithCompose`
path. -/
def buildStage (a : BuildInputs) (p : BuildPlan) (s : RunState) : RunState :=
  match p.architectures with
  | some archs => archs.foldl (fun st arch => buildArchTask a p arch st) s
  | none => buildComposeTask a p s

/-- The "Upload release to Swarm" task (`skip: () => skipUpload`).
Modelled from the spec: `swarmAddDirFromFs` returns an abstract content
address for the directory tree. -/
def swarmUploadTask (a : BuildInputs) (p : BuildPlan) (s : RunState) :
    RunState :=
  if p.skipUpload then s
  else { s with ctx := { s.ctx with releaseHash := some a.swarmHash } }

/-- The "Upload release to IPFS" task (`skip: () => skipUpload`): if the
`linux/amd64` archive exists it is first copied to the legacy path
(`fs.copyFileSync(imagePathAmd, imagePathLegacy)`, an unconditional
overwrite), then — modelled from the spec — `ipfsAddFromFs` returns an
abstract content address. -/
def ipfsUploadTask (a : BuildInputs) (p : BuildPlan) (s : RunState) :
    RunState :=
  if p.skipUpload then s
  else
    let amdName := getImagePath p.name p.version "linux/amd64"
    let fs' :=
      match fsLookup amdName s.buildDir with
      | some d => fsWrite (getLegacyImagePath p.name p.version) d s.buildDir
      | none => s.buildDir
    { s with buildDir := fs'
             ctx := { s.ctx with releaseHash := some a.ipfsHash } }

/-- The upload stage: exactly one of the two backend tasks, selected by
`uploadToSwarm`. -/
def uploadStage (a : BuildInputs) (p : BuildPlan) (s : RunState) : RunState :=
  if p.uploadToSwarm then swarmUploadTask a p s else ipfsUploadTask a p s

/-- The "Save upload results" task: `addReleaseRecord` with
`ctx.releaseHash` and the selected provider, then
`ctx.releaseMultiHash = ctx.releaseHash`, then the best-effort
`pruneCache()` whose failure is caught and logged. -/
def saveUploadResultsTask (a : BuildInputs) (p : BuildPlan) (s : RunState) :
    RunState :=
  let rec' := addReleaseRecord s.record p.version s.ctx.releaseHash
    (if p.uploadToSwarm then p.swarmProvider else p.ipfsProvider)
  let ctx' := { s.ctx with releaseMultiHash := s.ctx.releaseHash }
  let log' :=
    match a.pruneResult with
    | .ok _ => s.errorLog
    | .error e => s.errorLog ++ ["Error on pruneCache " ++ e]
  { buildDir := s.buildDir, ctx := ctx', record := rec', errorLog := log' }

/-- The initial run state: the pre-existing build directory and release
record store, an empty run context, an empty error log. -/
def initState (a : BuildInputs) : RunState :=
  { buildDir := a.initialFiles
    ctx := {}
    record := a.initialRecord
    errorLog := [] }

/-- A full `buildAndUpload` run: the setup phase, then the task list in
order, stopping at the first error and returning the state reached
together with the error, if any. -/
def runPipeline (a : BuildInputs) : RunState × Option PipeError :=
  match buildAndUploadSetup a with
  | .error e => (initState a, some e)
  | .ok p =>
    let s1 := createReleaseDirTask p (initState a)
    match copyFilesTask a p s1 with
    | (s2, some e) => (s2, some e)
    | (s2, none) =>
      let s3 := buildStage a p s2
      let s4 := uploadStage a p s3
      (saveUploadResultsTask a p s4, none)

/-! ## File-name lemmas -/

/-- The fixed names the "Copy files and validate" task can write. -/
def allAssetNames : List String :=
  ["avatar.png", "docker-compose.yml", "dappnode_package.json"]
    ++ optionalAssetNames

theorem getImagePath_ne (n v a g : String) (i : Nat)
    (hi : i < ".txz".data.length) (hg : revChar ".txz" i ≠ revChar g i) :
    getImagePath n v a ≠ g := by
  simp only [getImagePath]
  exact append_ne_of_revChar _ ".txz" g i hi hg

theorem getLegacyImagePath_ne (n v g : String) (i : Nat)
    (hi : i < ".tar.xz".data.length) (hg : revChar ".tar.xz" i ≠ revChar g i) :
    getLegacyImagePath n v ≠ g := by
  simp only [getLegacyImagePath]
  exact append_ne_of_revChar _ ".tar.xz" g i hi hg

theorem getImagePath_ne_asset (n v a g : String) (hg : g ∈ allAssetNames) :
    getImagePath n v a ≠ g := by
  fin_cases hg <;> exact getImagePath_ne n v a _ 0 (by decide) (by decide)

theorem getLegacyImagePath_ne_asset (n v g : String) (hg : g ∈ allAssetNames) :
    getLegacyImagePath n v ≠ g := by
  fin_cases hg <;> exact getLegacyImagePath_ne n v _ 0 (by decide) (by decide)

theorem getLegacyImagePath_ne_getImagePath (n v n' v' a : String) :
    getLegacyImagePath n v ≠ getImagePath n' v' a := by
  simp only [getLegacyImagePath, getImagePath]
  exact append_ne_append_of_revChar _ ".tar.xz" _ ".txz" 2
    (by decide) (by decide) (by decide)

theorem getImagePath_inj_tag (n v a b : String)
    (h : getImagePath n v a = getImagePath n v b) :
    getArchTag a = getArchTag b := by
  have hd : (((n.data ++ "_".data) ++ v.data) ++ "_".data
        ++ (getArchTag a).data) ++ ".txz".data
      = (((n.data ++ "_".data) ++ v.data) ++ "_".data
        ++ (getArchTag b).data) ++ ".txz".data :=
    congrArg String.data h
  have h1 := List.append_cancel_right hd
  have h2 := List.append_cancel_left h1
  exact String.ext h2

theorem pathJoin_has_slash (d f : String) : ('/' : Char) ∈ (pathJoin d f).data := by
  show ('/' : Char) ∈ (d.data ++ ['/']) ++ f.data
  simp

theorem ne_pathJoin_of_no_slash (g d f : String) (hg : ('/' : Char) ∉ g.data) :
    g ≠ pathJoin d f :=
  fun he => hg (he ▸ pathJoin_has_slash d f)

/-! ## Stage lemmas -/

theorem createReleaseDir_lookup (p : BuildPlan) (s : RunState) (g : String) :
    fsLookup g (createReleaseDirTask p s).buildDir
      = if g ∈ expectedImagePaths p then fsLookup g s.buildDir else none := by
  show fsLookup g
    (s.buildDir.filter (fun kv => (expectedImagePaths p).contains kv.1)) = _
  rw [fsLookup_filterKeys (fun k => (expectedImagePaths p).contains k) g
    s.buildDir]
  by_cases hm : g ∈ expectedImagePaths p
  · rw [if_pos (by simpa using hm), if_pos hm]
  · rw [if_neg (by simpa using hm), if_neg hm]

theorem createReleaseDir_ctx (p : BuildPlan) (s : RunState) :
    (createReleaseDirTask p s).ctx = s.ctx := rfl

theorem fsLookup_writeOpt_ne (f g : String) (d : Option String) (fs : FS)
    (h : g ≠ f) : fsLookup g (writeOpt f d fs) = fsLookup g fs := by
  cases d with
  | none => rfl
  | some x => exact fsLookup_fsWrite_ne f g (.asset x) fs h

theorem copyFiles_lookup_nonasset (a : BuildInputs) (p : BuildPlan)
    (s : RunState) (g : String) (h : g ∉ allAssetNames) :
    fsLookup g (copyFilesTask a p s).1.buildDir = fsLookup g s.buildDir := by
  have h1 : g ≠ "avatar.png" := fun he => h (by rw [he]; decide)
  have h2 : g ≠ "docker-compose.yml" := fun he => h (by rw [he]; decide)
  have h3 : g ≠ "dappnode_package.json" := fun he => h (by rw [he]; decide)
  have h4 : g ≠ "setup-wizard.json" := fun he => h (by rw [he]; decide)
  have h5 : g ≠ "setup.schema.json" := fun he => h (by rw [he]; decide)
  have h6 : g ≠ "setup-target.json" := fun he => h (by rw [he]; decide)
  have h7 : g ≠ "setup-ui.json" := fun he => h (by rw [he]; decide)
  have h8 : g ≠ "disclaimer.md" := fun he => h (by rw [he]; decide)
  have h9 : g ≠ "getting-started.md" := fun he => h (by rw [he]; decide)
  unfold copyFilesTask
  by_cases hv : a.prereleaseValid
  · rw [if_pos hv]
    show fsLookup g (writeOptionalAssets a _) = _
    unfold writeOptionalAssets
    rw [fsLookup_writeOpt_ne _ _ _ _ h9, fsLookup_writeOpt_ne _ _ _ _ h8,
      fsLookup_writeOpt_ne _ _ _ _ h7, fsLookup_writeOpt_ne _ _ _ _ h6,
      fsLookup_writeOpt_ne _ _ _ _ h5, fsLookup_writeOpt_ne _ _ _ _ h4,
      fsLookup_fsWrite_ne _ _ _ _ h3, fsLookup_fsWrite_ne _ _ _ _ h2,
      fsLookup_fsWrite_ne _ _ _ _ h1]
  · rw [if_neg hv]
    show fsLookup g (fsWrite "dappnode_package.json" _ _) = _
    rw [fsLookup_fsWrite_ne _ _ _ _ h3, fsLookup_fsWrite_ne _ _ _ _ h2,
      fsLookup_fsWrite_ne _ _ _ _ h1]

theorem copyFiles_ctx (a : BuildInputs) (p : BuildPlan) (s : RunState) :
    (copyFilesTask a p s).1.ctx = s.ctx := by
  unfold copyFilesTask
  by_cases hv : a.prereleaseValid
  · rw [if_pos hv]
  · rw [if_neg hv]

theorem copyFiles_valid (a : BuildInputs) (p : BuildPlan) (s : RunState)
    (hv : a.prereleaseValid = true) : (copyFilesTask a p s).2 = none := by
  unfold copyFilesTask
  rw [if_pos hv]

theorem buildFold_lookup_notmem (a : BuildInputs) (p : BuildPlan)
    (archs : List String) (g : String)
    (h : ∀ x ∈ archs, getImagePath p.name p.version x ≠ g) :
    ∀ s : RunState,
      fsLookup g
        (archs.foldl (fun st arch => buildArchTask a p arch st) s).buildDir
      = fsLookup g s.buildDir := by
  induction archs with
  | nil => intro s; rfl
  | cons b rest ih =>
    intro s
    rw [List.foldl_cons,
      ih (fun x hx => h x (List.mem_cons_of_mem b hx))]
    exact fsLookup_fsWrite_ne _ _ _ _
      (fun he => h b (List.mem_cons_self b rest) he.symm)

theorem buildFold_lookup_mem (a : BuildInputs) (p : BuildPlan)
    (archs : List String) (b : String)
    (hnd : (archs.map (getImagePath p.name p.version)).Nodup)
    (hm : b ∈ archs) :
    ∀ s : RunState,
      fsLookup (getImagePath p.name p.version b)
        (archs.foldl (fun st arch => buildArchTask a p arch st) s).buildDir
      = some (.image (a.buildOutput b)) := by
  induction archs with
  | nil => exact absurd hm (List.not_mem_nil b)
  | cons c rest ih =>
    intro s
    rw [List.foldl_cons]
    rcases List.mem_cons.mp hm with hbc | hbr
    · subst hbc
      have hnotin : getImagePath p.name p.version b
          ∉ rest.map (getImagePath p.name p.version) :=
        (List.nodup_cons.mp (by simpa using hnd)).1
      rw [buildFold_lookup_notmem a p rest _
        (fun x hx he => hnotin (by rw [← he]; exact List.mem_map_of_mem _ hx))]
      exact fsLookup_fsWrite_self _ _ _
    · exact ih (List.nodup_cons.mp (by simpa using hnd)).2 hbr _

theorem buildStage_some (a : BuildInputs) (p : BuildPlan)
    (archs : List String) (h : p.architectures = some archs) (s : RunState) :
    buildStage a p s
      = archs.foldl (fun st arch => buildArchTask a p arch st) s := by
  unfold buildStage
  rw [h]

theorem buildStage_none (a : BuildInputs) (p : BuildPlan)
    (h : p.architectures = none) (s : RunState) :
    buildStage a p s = buildComposeTask a p s := by
  unfold buildStage
  rw [h]

theorem buildComposeTask_lookup_self (a : BuildInputs) (p : BuildPlan)
    (s : RunState) :
    fsLookup (getImagePath p.name p.version "linux/amd64")
      (buildComposeTask a p s).buildDir = some (.image a.composeBuildOutput) :=
  fsLookup_fsWrite_self _ _ _

theorem buildComposeTask_lookup_ne (a : BuildInputs) (p : BuildPlan)
    (s : RunState) (g : String)
    (h : g ≠ getImagePath p.name p.version "linux/amd64") :
    fsLookup g (buildComposeTask a p s).buildDir = fsLookup g s.buildDir :=
  fsLookup_fsWrite_ne _ _ _ _ h

theorem buildStage_ctx (a : BuildInputs) (p : BuildPlan) (s : RunState) :
    (buildStage a p s).ctx = s.ctx := by
  unfold buildStage
  cases p.architectures with
  | none => rfl
  | some archs =>
    induction archs generalizing s with
    | nil => rfl
    | cons b rest ih => exact ih (buildArchTask a p b s)

theorem uploadStage_skip (a : BuildInputs) (p : BuildPlan) (s : RunState)
    (h : p.skipUpload = true) : uploadStage a p s = s := by
  unfold uploadStage swarmUploadTask ipfsUploadTask
  cases hu : p.uploadToSwarm <;> simp [h]

theorem uploadStage_swarm_buildDir (a : BuildInputs) (p : BuildPlan)
    (s : RunState) (h : p.uploadToSwarm = true) :
    (uploadStage a p s).buildDir = s.buildDir := by
  unfold uploadStage swarmUploadTask
  rw [h]
  cases hs : p.skipUpload <;> simp

theorem uploadStage_ipfs_buildDir (a : BuildInputs) (p : BuildPlan)
    (s : RunState) (hu : p.uploadToSwarm = false) (hs : p.skipUpload = false) :
    (uploadStage a p s).buildDir
      = (match fsLookup (getImagePath p.name p.version "linux/amd64")
            s.buildDir with
        | some d => fsWrite (getLegacyImagePath p.name p.version) d s.buildDir
        | none => s.buildDir) := by
  unfold uploadStage ipfsUploadTask
  rw [hu, hs]
  simp

theorem uploadStage_lookup_nonlegacy (a : BuildInputs) (p : BuildPlan)
    (s : RunState) (g : String)
    (h : g ≠ getLegacyImagePath p.name p.version) :
    fsLookup g (uploadStage a p s).buildDir = fsLookup g s.buildDir := by
  unfold uploadStage swarmUploadTask ipfsUploadTask
  cases hu : p.uploadToSwarm
  · cases hs : p.skipUpload
    · simp only [if_false, Bool.false_eq_true]
      cases hl : fsLookup (getImagePath p.name p.version "linux/amd64")
        s.buildDir
      · simp [hl]
      · simp only [hl]
        exact fsLookup_fsWrite_ne _ _ _ _ h
    · simp
  · cases hs : p.skipUpload <;> simp

theorem saveTask_buildDir (a : BuildInputs) (p : BuildPlan) (s : RunState) :
    (saveUploadResultsTask a p s).buildDir = s.buildDir := rfl

theorem saveTask_record (a : BuildInputs) (p : BuildPlan) (s : RunState) :
    (saveUploadResultsTask a p s).record
      = addReleaseRecord s.record p.version s.ctx.releaseHash
          (if p.uploadToSwarm then p.swarmProvider else p.ipfsProvider) := rfl

theorem saveTask_ctx (a : BuildInputs) (p : BuildPlan) (s : RunState) :
    (saveUploadResultsTask a p s).ctx
      = { releaseHash := s.ctx.releaseHash
          releaseMultiHash := s.ctx.releaseHash } := rfl

/-! ## More name separations -/

theorem data_length_append (x y : String) :
    (x ++ y).data.length = x.data.length + y.data.length := by
  rw [show (x ++ y).data = x.data ++ y.data from rfl, List.length_append]

theorem getLegacyImagePath_ne_pathJoin_image (n v n' v' a d : String) :
    getLegacyImagePath n v ≠ pathJoin d (getImagePath n' v' a) := by
  apply ne_of_revChar 2
  rw [show getLegacyImagePath n v = (n ++ "_" ++ v) ++ ".tar.xz" from rfl,
    revChar_append _ ".tar.xz" 2 (by decide)]
  rw [show pathJoin d (getImagePath n' v' a)
    = (d ++ "/") ++ ((n' ++ "_" ++ v' ++ "_" ++ getArchTag a) ++ ".txz")
    from rfl]
  rw [revChar_append (d ++ "/")
    ((n' ++ "_" ++ v' ++ "_" ++ getArchTag a) ++ ".txz") 2
    (by rw [data_length_append]
        have h4 : (".txz" : String).data.length = 4 := by decide
        omega)]
  rw [revChar_append _ ".txz" 2 (by decide)]
  decide

theorem no_slash_getArchTag (a : String) : ('/' : Char) ∉ (getArchTag a).data := by
  show ('/' : Char) ∉ a.data.map (fun c => if c = '/' then '-' else c)
  intro hm
  rcases List.mem_map.mp hm with ⟨c, -, hc⟩
  by_cases h : c = '/'
  · rw [if_pos h] at hc
    exact absurd hc (by decide)
  · rw [if_neg h] at hc
    exact h hc

theorem no_slash_getImagePath (n v a : String) (hn : ('/' : Char) ∉ n.data)
    (hv : ('/' : Char) ∉ v.data) :
    ('/' : Char) ∉ (getImagePath n v a).data := by
  show ('/' : Char)
    ∉ (((n.data ++ "_".data) ++ v.data) ++ "_".data ++ (getArchTag a).data)
      ++ ".txz".data
  intro hm
  simp only [List.mem_append] at hm
  rcases hm with ((((h | h) | h) | h) | h) | h
  · exact hn h
  · exact absurd h (by decide)
  · exact hv h
  · exact absurd h (by decide)
  · exact no_slash_getArchTag a h
  · exact absurd h (by decide)

/-! ## Pipeline decomposition -/

/-- The state after the "Create release dir" and "Copy files and
validate" tasks (assuming validation passes). -/
def postCopyState (a : BuildInputs) (p : BuildPlan) : RunState :=
  (copyFilesTask a p (createReleaseDirTask p (initState a))).1

/-- The state just before the upload stage: after the build stage. -/
def preUploadState (a : BuildInputs) (p : BuildPlan) : RunState :=
  buildStage a p (postCopyState a p)

theorem setup_ok_facts (a : BuildInputs) (p : BuildPlan)
    (h : buildAndUploadSetup a = .ok p) :
    p.name = a.manifest.name
    ∧ p.version = a.manifest.version
    ∧ p.architectures = a.manifest.architectures
    ∧ p.imagePathAmd = pathJoin a.buildDirPath
        (getImagePath a.manifest.name a.manifest.version "linux/amd64")
    ∧ p.buildDirPath = a.buildDirPath
    ∧ p.uploadToSwarm = a.uploadToSwarm
    ∧ p.skipUpload = a.skipUpload
    ∧ p.ipfsProvider = a.ipfsProvider
    ∧ p.swarmProvider = a.swarmProvider
    ∧ p.manifestFinal
        = (if strTruthy (jsOrStr a.composeUpstreamVersion a.envUpstreamVersion)
          then { a.manifest with upstreamVersion := jsOrStr a.composeUpstreamVersion a.envUpstreamVersion }
          else a.manifest) := by
  simp only [buildAndUploadSetup] at h
  split_ifs at h ⊢ with h1 h2 h3 h4 h5 <;>
    first
      | exact Except.noConfusion h
      | (injection h with hp
         subst hp
         exact ⟨rfl, rfl, rfl, rfl, rfl, rfl, rfl, rfl, rfl, rfl⟩)

theorem runPipeline_setup_err (a : BuildInputs) (e : PipeError)
    (h : buildAndUploadSetup a = .error e) :
    runPipeline a = (initState a, some e) := by
  simp only [runPipeline, h]

theorem runPipeline_ok (a : BuildInputs) (p : BuildPlan)
    (hset : buildAndUploadSetup a = .ok p) (hv : a.prereleaseValid = true) :
    runPipeline a
      = (saveUploadResultsTask a p (uploadStage a p (preUploadState a p)),
        none) := by
  have hc : copyFilesTask a p (createReleaseDirTask p (initState a))
      = (postCopyState a p, none) := by
    unfold postCopyState
    rw [← copyFiles_valid a p (createReleaseDirTask p (initState a)) hv]
  simp only [runPipeline, hset, hc, preUploadState]

theorem preUpload_legacy_none (a : BuildInputs) (p : BuildPlan)
    (hset : buildAndUploadSetup a = .ok p) :
    fsLookup (getLegacyImagePath p.name p.version)
      (preUploadState a p).buildDir = none := by
  obtain ⟨hn, hv, -, hamd, -⟩ := setup_ok_facts a p hset
  unfold preUploadState
  have hcopy : fsLookup (getLegacyImagePath p.name p.version)
      (postCopyState a p).buildDir = none := by
    unfold postCopyState
    rw [copyFiles_lookup_nonasset a p _ _
      (fun hm => (getLegacyImagePath_ne_asset p.name p.version _ hm) rfl)]
    rw [createReleaseDir_lookup]
    rw [if_neg]
    intro hm
    unfold expectedImagePaths at hm
    cases harchs : p.architectures with
    | some archs =>
      rw [harchs] at hm
      rcases List.mem_map.mp hm with ⟨x, -, he⟩
      exact getLegacyImagePath_ne_getImagePath p.name p.version
        p.name p.version x he.symm
    | none =>
      rw [harchs] at hm
      rcases List.mem_singleton.mp hm with he
      rw [hamd] at he
      exact getLegacyImagePath_ne_pathJoin_image p.name p.version
        a.manifest.name a.manifest.version "linux/amd64" a.buildDirPath he
  cases harchs : p.architectures with
  | some archs =>
    rw [buildStage_some a p archs harchs]
    rw [buildFold_lookup_notmem a p archs _
      (fun x hx he => getLegacyImagePath_ne_getImagePath p.name p.version
        p.name p.version x he.symm)]
    exact hcopy
  | none =>
    rw [buildStage_none a p harchs]
    rw [buildComposeTask_lookup_ne a p _ _
      (getLegacyImagePath_ne_getImagePath p.name p.version
        p.name p.version "linux/amd64")]
    exact hcopy

/-! ## Setup outcome lemmas -/

theorem setup_image_err (a : BuildInputs) (c1 : strTruthy a.manifest.image = true) :
    buildAndUploadSetup a = .error .manifestImageSet := by
  simp [buildAndUploadSetup, c1]

theorem setup_avatar_err (a : BuildInputs)
    (c1 : ¬strTruthy a.manifest.image = true)
    (c2 : strTruthy a.manifest.avatar = true) :
    buildAndUploadSetup a = .error .manifestAvatarSet := by
  simp [buildAndUploadSetup, c1, c2]

theorem setup_uppercase_err (a : BuildInputs)
    (c1 : ¬strTruthy a.manifest.image = true)
    (c2 : ¬strTruthy a.manifest.avatar = true)
    (c3 : hasUppercase a.manifest.name = true) :
    buildAndUploadSetup a = .error .uppercaseName := by
  simp [buildAndUploadSetup, c1, c2, c3]

/-! ## Claims -/

/-- Claim C6: for every manifest whose name contains at least one
uppercase letter (`/[A-Z]/`), the pipeline fails with a configuration
error (`CliError`), leaving the initial state untouched. -/
theorem c6_uppercase_name_rejected (a : BuildInputs)
    (h : hasUppercase a.manifest.name = true) :
    ∃ e, runPipeline a = (initState a, some e)
      ∧ PipeError.isConfigError e = true := by
  by_cases c1 : strTruthy a.manifest.image = true
  · exact ⟨_, runPipeline_setup_err a _ (setup_image_err a c1), rfl⟩
  · by_cases c2 : strTruthy a.manifest.avatar = true
    · exact ⟨_, runPipeline_setup_err a _ (setup_avatar_err a c1 c2), rfl⟩
    · exact ⟨_, runPipeline_setup_err a _ (setup_uppercase_err a c1 c2 h), rfl⟩

/-- A concrete run input whose manifest name contains an uppercase
letter. -/
def argsC6 : BuildInputs where
  manifest := { name := "Foo", version := "1.0.0" }
  buildDirPath := "/pkg/build_1.0.0"

/-- Witness for C6: the concrete manifest named "Foo" is rejected with a
configuration error. -/
theorem c6_witness :
    hasUppercase argsC6.manifest.name = true
    ∧ ∃ e, runPipeline argsC6 = (initState argsC6, some e)
        ∧ PipeError.isConfigError e = true :=
  ⟨by decide, c6_uppercase_name_rejected argsC6 (by decide)⟩

/-- A concrete run input whose manifest has the forbidden `avatar` field
set — to the empty string, which JavaScript treats as falsy. -/
def argsC5 : BuildInputs where
  manifest := { name := "foo", version := "1.0.0", avatar := some "" }
  buildDirPath := "/pkg/build_1.0.0"

/-- Counterexample to claim C5 as stated: a manifest whose `avatar`
field is set (to the empty string) is not rejected — `if
(manifest.avatar)` is false for the empty string, so the pipeline runs
to completion without any configuration error. -/
theorem c5_empty_avatar_field_not_rejected :
    argsC5.manifest.avatar.isSome = true
    ∧ (runPipeline argsC5).2 = none := by
  constructor
  · decide
  · decide

/-- Claim C5 (amended): for every manifest whose `image` or `avatar`
field is set to a truthy value (a non-empty string), the pipeline fails
with a configuration error and the build directory still holds exactly
the pre-existing files — nothing has been written to it. -/
theorem c5_amended_truthy_image_or_avatar_rejected (a : BuildInputs)
    (h : strTruthy a.manifest.image = true
      ∨ strTruthy a.manifest.avatar = true) :
    ∃ e, runPipeline a = (initState a, some e)
      ∧ PipeError.isConfigError e = true
      ∧ (runPipeline a).1.buildDir = a.initialFiles := by
  by_cases c1 : strTruthy a.manifest.image = true
  · refine ⟨_, runPipeline_setup_err a _ (setup_image_err a c1), rfl, ?_⟩
    rw [runPipeline_setup_err a _ (setup_image_err a c1)]
    rfl
  · have c2 : strTruthy a.manifest.avatar = true := h.resolve_left c1
    refine ⟨_, runPipeline_setup_err a _ (setup_avatar_err a c1 c2), rfl, ?_⟩
    rw [runPipeline_setup_err a _ (setup_avatar_err a c1 c2)]
    rfl

/-- A concrete run input whose manifest has a truthy `image` field. -/
def argsC5w : BuildInputs where
  manifest := { name := "foo", version := "1.0.0", image := some "foo.dnp.dappnode.eth:1.0.0" }
  buildDirPath := "/pkg/build_1.0.0"
  initialFiles := [("stale.txt", .asset "junk")]

/-- Witness for the amended C5: a concrete manifest with a non-empty
`image` value is rejected before any file is written. -/
theorem c5_amended_witness :
    (strTruthy argsC5w.manifest.image = true
      ∨ strTruthy argsC5w.manifest.avatar = true)
    ∧ ∃ e, runPipeline argsC5w = (initState argsC5w, some e)
        ∧ PipeError.isConfigError e = true
        ∧ (runPipeline argsC5w).1.buildDir = argsC5w.initialFiles :=
  ⟨Or.inl (by decide),
    c5_amended_truthy_image_or_avatar_rejected argsC5w (Or.inl (by decide))⟩

/-- Claim C10: when the manifest declares no architectures, the expected
set of the "create/clean" phase is the singleton holding the
`buildDir`-joined path of the default-architecture archive; a bare
directory entry (which contains no path separator) never equals it, so
every pre-existing file is deleted. -/
theorem c10_no_arch_clean_deletes_everything (a : BuildInputs) (p : BuildPlan)
    (hset : buildAndUploadSetup a = .ok p)
    (hnone : a.manifest.architectures = none)
    (hfiles : ∀ kv ∈ a.initialFiles, ('/' : Char) ∉ kv.1.data) :
    expectedImagePaths p
      = [pathJoin a.buildDirPath
          (getImagePath a.manifest.name a.manifest.version "linux/amd64")]
    ∧ (createReleaseDirTask p (initState a)).buildDir = [] := by
  obtain ⟨-, -, harch, hamd, -⟩ := setup_ok_facts a p hset
  have hexp : expectedImagePaths p
      = [pathJoin a.buildDirPath
          (getImagePath a.manifest.name a.manifest.version "linux/amd64")] := by
    unfold expectedImagePaths
    rw [harch, hnone, hamd]
  refine ⟨hexp, ?_⟩
  show a.initialFiles.filter
    (fun kv => (expectedImagePaths p).contains kv.1) = []
  rw [List.filter_eq_nil_iff]
  intro kv hm
  rw [hexp]
  simp only [List.contains_cons, List.contains_nil, Bool.or_false,
    beq_iff_eq, decide_eq_true_eq]
  exact ne_pathJoin_of_no_slash kv.1 _ _ (hfiles kv hm)

/-- A concrete no-architectures run whose build directory already holds
the previously built default archive and a stale file. -/
def argsC10 : BuildInputs where
  manifest := { name := "foo", version := "1.0.0" }
  buildDirPath := "/pkg/build_1.0.0"
  initialFiles :=
    [("foo_1.0.0_linux-amd64.txz", .image "previously-built"),
     ("stale.txt", .asset "junk")]

/-- The plan computed by the setup phase for `argsC10`. -/
def planC10 : BuildPlan where
  name := "foo"
  version := "1.0.0"
  architectures := none
  manifestFinal := { name := "foo", version := "1.0.0" }
  imagePathAmd := "/pkg/build_1.0.0/foo_1.0.0_linux-amd64.txz"
  imagePathLegacy := "/pkg/build_1.0.0/foo_1.0.0.tar.xz"
  buildDirPath := "/pkg/build_1.0.0"
  uploadToSwarm := false
  skipUpload := false
  ipfsProvider := "dappnode"
  swarmProvider := "dappnode"

/-- Witness for C10: on the concrete input, the clean phase deletes both
pre-existing files, including the correctly named default archive. -/
theorem c10_witness :
    buildAndUploadSetup argsC10 = .ok planC10
    ∧ expectedImagePaths planC10
        = [pathJoin argsC10.buildDirPath
            (getImagePath argsC10.manifest.name argsC10.manifest.version
              "linux/amd64")]
    ∧ (createReleaseDirTask planC10 (initState argsC10)).buildDir = [] := by
  have hset : buildAndUploadSetup argsC10 = .ok planC10 := rfl
  exact ⟨hset,
    c10_no_arch_clean_deletes_everything argsC10 planC10 hset (by decide)
      (by decide)⟩

/-- A concrete no-architectures run pre-populated with the deterministic
default-architecture archive for `{foo, 1.0.0}`. -/
def argsC2 : BuildInputs where
  manifest := { name := "foo", version := "1.0.0" }
  buildDirPath := "/pkg/build_1.0.0"
  initialFiles :=
    [("foo_1.0.0_linux-amd64.txz", .image "previously-built"),
     ("stale.txt", .asset "junk")]

/-- The plan computed by the setup phase for `argsC2`. -/
def planC2 : BuildPlan where
  name := "foo"
  version := "1.0.0"
  architectures := none
  manifestFinal := { name := "foo", version := "1.0.0" }
  imagePathAmd := "/pkg/build_1.0.0/foo_1.0.0_linux-amd64.txz"
  imagePathLegacy := "/pkg/build_1.0.0/foo_1.0.0.tar.xz"
  buildDirPath := "/pkg/build_1.0.0"
  uploadToSwarm := false
  skipUpload := false
  ipfsProvider := "dappnode"
  swarmProvider := "dappnode"

/-- Claim C2, evaluated at the failing input: with no architectures
declared, the build directory holds the archive whose name equals the
deterministic file name `getImagePath "foo" "1.0.0" "linux/amd64"` for
the default architecture, yet the "create/clean" phase deletes it (the
expected set holds the joined path, which the bare name never matches),
leaving the directory empty. -/
theorem c2_default_arch_prebuilt_archive_deleted :
    buildAndUploadSetup argsC2 = .ok planC2
    ∧ fsLookup (getImagePath "foo" "1.0.0" "linux/amd64") argsC2.initialFiles
        = some (.image "previously-built")
    ∧ (createReleaseDirTask planC2 (initState argsC2)).buildDir = [] := by
  refine ⟨rfl, by decide, by decide⟩

/-- A concrete run with the skip-upload configuration set (IPFS backend,
valid manifest, no architectures). -/
def argsC1 : BuildInputs where
  manifest := { name := "foo", version := "1.0.0" }
  buildDirPath := "/pkg/build_1.0.0"
  skipUpload := true

/-- Claim C1, evaluated at the failing input: with `skipUpload` set the
run completes, the Build Directory Manager and Image Build Orchestrator
stages did their work (avatar, compose, manifest and the built archive
are in the build directory; no upload-stage legacy copy was made), the
shared context's content address (`releaseHash`/`releaseMultiHash`)
stays unset — but the "Save upload results" task still runs
unconditionally and writes a release-record entry for version 1.0.0
with an absent content address. -/
theorem c1_skip_upload_still_writes_release_record :
    (runPipeline argsC1).2 = none
    ∧ fsLookup "avatar.png" (runPipeline argsC1).1.buildDir
        = some (.avatar "avatar-bytes")
    ∧ fsLookup "docker-compose.yml" (runPipeline argsC1).1.buildDir
        = some (.compose "release-compose")
    ∧ fsLookup "dappnode_package.json" (runPipeline argsC1).1.buildDir
        = some (.manifestFile "foo" "1.0.0" none)
    ∧ fsLookup "foo_1.0.0_linux-amd64.txz" (runPipeline argsC1).1.buildDir
        = some (.image "image-default")
    ∧ fsLookup "foo_1.0.0.tar.xz" (runPipeline argsC1).1.buildDir = none
    ∧ (runPipeline argsC1).1.ctx.releaseHash = none
    ∧ (runPipeline argsC1).1.ctx.releaseMultiHash = none
    ∧ (runPipeline argsC1).1.record = [("1.0.0", ⟨none, "dappnode"⟩)] := by
  refine ⟨by decide, by decide, by decide, by decide, by decide, by decide,
    by decide, by decide, by decide⟩

/-- Claim C8: the upstream version injected into the in-memory manifest
is the composition-declared marker when one is declared (also when the
environment variable is set: the composition takes precedence), and the
environment-provided value when the composition declares none. -/
theorem c8_upstream_version_injection (a : BuildInputs) (p : BuildPlan)
    (hset : buildAndUploadSetup a = .ok p) :
    (∀ u, a.composeUpstreamVersion = some u → u ≠ "" →
      p.manifestFinal.upstreamVersion = some u)
    ∧ (∀ e, a.composeUpstreamVersion = none → a.envUpstreamVersion = some e →
      e ≠ "" → p.manifestFinal.upstreamVersion = some e) := by
  obtain ⟨-, -, -, -, -, -, -, -, -, hmf⟩ := setup_ok_facts a p hset
  constructor
  · intro u hc hu
    have hjs : jsOrStr a.composeUpstreamVersion a.envUpstreamVersion = some u := by
      unfold jsOrStr
      rw [hc]
      rw [if_pos (by simp [strTruthy, hu])]
    rw [hmf, if_pos (by rw [hjs]; simp [strTruthy, hu]), hjs]
  · intro e hc he hne
    have hjs : jsOrStr a.composeUpstreamVersion a.envUpstreamVersion = some e := by
      unfold jsOrStr
      rw [hc, he]
      rfl
    rw [hmf, if_pos (by rw [hjs]; simp [strTruthy, hne]), hjs]

/-- A concrete run where both the composition marker and the environment
variable provide an upstream version. -/
def argsC8 : BuildInputs where
  manifest := { name := "foo", version := "1.0.0" }
  buildDirPath := "/pkg/build_1.0.0"
  composeUpstreamVersion := some "2.5.0"
  envUpstreamVersion := some "9.9.9"

/-- The plan computed by the setup phase for `argsC8`. -/
def planC8 : BuildPlan where
  name := "foo"
  version := "1.0.0"
  architectures := none
  manifestFinal := { name := "foo", version := "1.0.0", upstreamVersion := some "2.5.0" }
  imagePathAmd := "/pkg/build_1.0.0/foo_1.0.0_linux-amd64.txz"
  imagePathLegacy := "/pkg/build_1.0.0/foo_1.0.0.tar.xz"
  buildDirPath := "/pkg/build_1.0.0"
  uploadToSwarm := false
  skipUpload := false
  ipfsProvider := "dappnode"
  swarmProvider := "dappnode"

/-- Witness for C8: with marker "2.5.0" declared and environment value
"9.9.9" present, the injected upstream version is the
composition-declared "2.5.0". -/
theorem c8_witness :
    planC8.manifestFinal.upstreamVersion = some "2.5.0" :=
  c8_upstream_version_injection argsC8 planC8 rfl |>.1 "2.5.0" rfl (by decide)

/-- Claim C4: at the point the upload stage runs, the legacy path is
always absent (the clean phase removed it and no earlier stage writes
it); the IPFS task then makes the legacy file a copy of the
`linux/amd64` archive exactly when that archive exists (the lookup
equality covers both cases: copied content when present, still absent
when not), and the Swarm task leaves the build directory untouched. -/
theorem c4_legacy_copy_iff_default_archive_present (a : BuildInputs)
    (p : BuildPlan) (hset : buildAndUploadSetup a = .ok p) :
    fsLookup (getLegacyImagePath p.name p.version)
        (preUploadState a p).buildDir = none
    ∧ (p.uploadToSwarm = false → p.skipUpload = false →
        fsLookup (getLegacyImagePath p.name p.version)
          (uploadStage a p (preUploadState a p)).buildDir
        = fsLookup (getImagePath p.name p.version "linux/amd64")
            (preUploadState a p).buildDir)
    ∧ (p.uploadToSwarm = true →
        (uploadStage a p (preUploadState a p)).buildDir
          = (preUploadState a p).buildDir) := by
  refine ⟨preUpload_legacy_none a p hset, ?_, ?_⟩
  · intro hu hs
    rw [uploadStage_ipfs_buildDir a p _ hu hs]
    cases hl : fsLookup (getImagePath p.name p.version "linux/amd64")
      (preUploadState a p).buildDir with
    | some d =>
      simp only
      exact fsLookup_fsWrite_self _ _ _
    | none =>
      simp only
      exact preUpload_legacy_none a p hset
  · intro hu
    exact uploadStage_swarm_buildDir a p _ hu

/-- A concrete two-architecture IPFS run for the C4 witness. -/
def argsC4 : BuildInputs where
  manifest := { name := "foo", version := "1.0.0", architectures := some ["linux/amd64", "linux/arm64"] }
  buildDirPath := "/pkg/build_1.0.0"

/-- The plan computed by the setup phase for `argsC4`. -/
def planC4 : BuildPlan where
  name := "foo"
  version := "1.0.0"
  architectures := some ["linux/amd64", "linux/arm64"]
  manifestFinal := { name := "foo", version := "1.0.0", architectures := some ["linux/amd64", "linux/arm64"] }
  imagePathAmd := "/pkg/build_1.0.0/foo_1.0.0_linux-amd64.txz"
  imagePathLegacy := "/pkg/build_1.0.0/foo_1.0.0.tar.xz"
  buildDirPath := "/pkg/build_1.0.0"
  uploadToSwarm := false
  skipUpload := false
  ipfsProvider := "dappnode"
  swarmProvider := "dappnode"

/-- Witness for C4 on the concrete IPFS run: legacy absent before the
upload stage, and afterwards equal to the `linux/amd64` archive
content. -/
theorem c4_witness :
    fsLookup (getLegacyImagePath planC4.name planC4.version)
        (preUploadState argsC4 planC4).buildDir = none
    ∧ fsLookup (getLegacyImagePath planC4.name planC4.version)
        (uploadStage argsC4 planC4 (preUploadState argsC4 planC4)).buildDir
      = fsLookup (getImagePath planC4.name planC4.version "linux/amd64")
          (preUploadState argsC4 planC4).buildDir := by
  obtain ⟨h1, h2, -⟩ :=
    c4_legacy_copy_iff_default_archive_present argsC4 planC4 rfl
  exact ⟨h1, h2 rfl rfl⟩

/-- A concrete no-architectures IPFS run for C3. -/
def argsC3 : BuildInputs where
  manifest := { name := "foo", version := "1.0.0" }
  buildDirPath := "/pkg/build_1.0.0"

/-- The plan computed by the setup phase for `argsC3`. -/
def planC3 : BuildPlan where
  name := "foo"
  version := "1.0.0"
  architectures := none
  manifestFinal := { name := "foo", version := "1.0.0" }
  imagePathAmd := "/pkg/build_1.0.0/foo_1.0.0_linux-amd64.txz"
  imagePathLegacy := "/pkg/build_1.0.0/foo_1.0.0.tar.xz"
  buildDirPath := "/pkg/build_1.0.0"
  uploadToSwarm := false
  skipUpload := false
  ipfsProvider := "dappnode"
  swarmProvider := "dappnode"

/-- Counterexample to claim C3 as stated: in the no-architectures run
for `{foo, 1.0.0}`, the single default build path writes its archive to
`foo_1.0.0_linux-amd64.txz` — the legacy name `foo_1.0.0.tar.xz` is
absent after the build stage — and after the IPFS upload's extra copy
the successful run ends with **two** archive files, so the pipeline does
not produce "exactly one image archive named foo_1.0.0.tar.xz via the
build path". -/
theorem c3_legacy_name_not_sole_archive :
    (runPipeline argsC3).2 = none
    ∧ fsLookup "foo_1.0.0.tar.xz" (preUploadState argsC3 planC3).buildDir
        = none
    ∧ fsLookup "foo_1.0.0_linux-amd64.txz"
        (preUploadState argsC3 planC3).buildDir = some (.image "image-default")
    ∧ fsLookup "foo_1.0.0.tar.xz" (runPipeline argsC3).1.buildDir
        = some (.image "image-default")
    ∧ fsLookup "foo_1.0.0_linux-amd64.txz" (runPipeline argsC3).1.buildDir
        = some (.image "image-default") := by
  refine ⟨by decide, by decide, by decide, by decide, by decide⟩

/-- Claim C3 (amended): with no architectures declared, the single
default build path produces exactly one archive, at the
default-architecture name `name_version_linux-amd64.txz` — not the
legacy name; the legacy `name_version.tar.xz` appears only as the IPFS
upload task's extra copy, after which both archive files exist (a Swarm
run ends with only the default-architecture archive). -/
theorem c3_amended_single_arch_build_and_legacy_copy (a : BuildInputs)
    (p : BuildPlan) (hset : buildAndUploadSetup a = .ok p)
    (hnone : a.manifest.architectures = none)
    (hv : a.prereleaseValid = true)
    (hn : ('/' : Char) ∉ a.manifest.name.data)
    (hver : ('/' : Char) ∉ a.manifest.version.data) :
    fsLookup (getImagePath p.name p.version "linux/amd64")
        (preUploadState a p).buildDir = some (.image a.composeBuildOutput)
    ∧ (∀ arch, getArchTag arch ≠ getArchTag "linux/amd64" →
        fsLookup (getImagePath p.name p.version arch)
          (preUploadState a p).buildDir = none)
    ∧ fsLookup (getLegacyImagePath p.name p.version)
        (preUploadState a p).buildDir = none
    ∧ (a.uploadToSwarm = false → a.skipUpload = false →
        fsLookup (getLegacyImagePath p.name p.version)
            (runPipeline a).1.buildDir = some (.image a.composeBuildOutput)
        ∧ fsLookup (getImagePath p.name p.version "linux/amd64")
            (runPipeline a).1.buildDir = some (.image a.composeBuildOutput))
    ∧ (a.uploadToSwarm = true →
        fsLookup (getLegacyImagePath p.name p.version)
            (runPipeline a).1.buildDir = none
        ∧ fsLookup (getImagePath p.name p.version "linux/amd64")
            (runPipeline a).1.buildDir = some (.image a.composeBuildOutput)) := by
  obtain ⟨hpn, hpv, hpa, hamd, -, hswarm, hskip, -⟩ := setup_ok_facts a p hset
  have hparch : p.architectures = none := by rw [hpa, hnone]
  have hbuild : fsLookup (getImagePath p.name p.version "linux/amd64")
      (preUploadState a p).buildDir = some (.image a.composeBuildOutput) := by
    unfold preUploadState
    rw [buildStage_none a p hparch]
    exact buildComposeTask_lookup_self a p _
  have hother : ∀ arch, getArchTag arch ≠ getArchTag "linux/amd64" →
      fsLookup (getImagePath p.name p.version arch)
        (preUploadState a p).buildDir = none := by
    intro arch hne
    unfold preUploadState
    rw [buildStage_none a p hparch]
    rw [buildComposeTask_lookup_ne a p _ _
      (fun he => hne (getImagePath_inj_tag p.name p.version arch "linux/amd64" he))]
    unfold postCopyState
    rw [copyFiles_lookup_nonasset a p _ _
      (fun hm => (getImagePath_ne_asset p.name p.version arch _ hm) rfl)]
    rw [createReleaseDir_lookup]
    rw [if_neg]
    intro hm
    unfold expectedImagePaths at hm
    rw [hparch] at hm
    rcases List.mem_singleton.mp hm with he
    rw [hamd] at he
    refine ne_pathJoin_of_no_slash _ _ _ ?_ he
    rw [hpn, hpv]
    exact no_slash_getImagePath a.manifest.name a.manifest.version arch hn hver
  have hlegacy : fsLookup (getLegacyImagePath p.name p.version)
      (preUploadState a p).buildDir = none := preUpload_legacy_none a p hset
  refine ⟨hbuild, hother, hlegacy, ?_, ?_⟩
  · intro hu hs
    rw [runPipeline_ok a p hset hv]
    show fsLookup _ (saveUploadResultsTask a p _).buildDir = _
      ∧ fsLookup _ (saveUploadResultsTask a p _).buildDir = _
    rw [saveTask_buildDir]
    have hu' : p.uploadToSwarm = false := by rw [hswarm, hu]
    have hs' : p.skipUpload = false := by rw [hskip, hs]
    rw [uploadStage_ipfs_buildDir a p _ hu' hs']
    rw [hbuild]
    simp only
    constructor
    · exact fsLookup_fsWrite_self _ _ _
    · rw [fsLookup_fsWrite_ne _ _ _ _
        (fun he => getLegacyImagePath_ne_getImagePath p.name p.version
          p.name p.version "linux/amd64" he.symm)]
      exact hbuild
  · intro hu
    rw [runPipeline_ok a p hset hv]
    show fsLookup _ (saveUploadResultsTask a p _).buildDir = _
      ∧ fsLookup _ (saveUploadResultsTask a p _).buildDir = _
    rw [saveTask_buildDir]
    have hu' : p.uploadToSwarm = true := by rw [hswarm, hu]
    rw [uploadStage_swarm_buildDir a p _ hu']
    exact ⟨hlegacy, hbuild⟩

/-- Witness for the amended C3: on the concrete run, the build stage
produced the default-architecture archive (and no other architecture's
archive, e.g. arm64), and the final IPFS state holds the legacy copy. -/
theorem c3_amended_witness :
    fsLookup (getImagePath "foo" "1.0.0" "linux/amd64")
        (preUploadState argsC3 planC3).buildDir = some (.image "image-default")
    ∧ fsLookup (getImagePath "foo" "1.0.0" "linux/arm64")
        (preUploadState argsC3 planC3).buildDir = none
    ∧ fsLookup (getLegacyImagePath "foo" "1.0.0")
        (runPipeline argsC3).1.buildDir = some (.image "image-default") := by
  obtain ⟨h1, h2, h3, h4, h5⟩ :=
    c3_amended_single_arch_build_and_legacy_copy argsC3 planC3 rfl rfl rfl
      (by decide) (by decide)
  exact ⟨h1, h2 "linux/arm64" (by decide), (h4 rfl rfl).1⟩

/-- Claim C7: for a declared architecture list, a successful run leaves
one archive per declared architecture at its deterministic
`name_version_tag.txz` file name (holding that architecture's build
output), any archive-style file name present corresponds to a declared
architecture tag, and the count of present expected archives equals the
list's length N. -/
theorem c7_one_archive_per_declared_architecture (a : BuildInputs)
    (p : BuildPlan) (archs : List String)
    (hset : buildAndUploadSetup a = .ok p)
    (harchs : a.manifest.architectures = some archs)
    (hv : a.prereleaseValid = true)
    (hnd : (archs.map (getImagePath p.name p.version)).Nodup) :
    (runPipeline a).2 = none
    ∧ (∀ b ∈ archs, fsLookup (getImagePath p.name p.version b)
        (runPipeline a).1.buildDir = some (.image (a.buildOutput b)))
    ∧ (∀ arch, (fsLookup (getImagePath p.name p.version arch)
        (runPipeline a).1.buildDir).isSome = true →
        getArchTag arch ∈ archs.map getArchTag)
    ∧ ((archs.map (getImagePath p.name p.version)).filter
        (fun f => (fsLookup f (runPipeline a).1.buildDir).isSome)).length
      = archs.length := by
  obtain ⟨hpn, hpv, hpa, hamd, -⟩ := setup_ok_facts a p hset
  have hparch : p.architectures = some archs := by rw [hpa, harchs]
  have hrun := runPipeline_ok a p hset hv
  have hmem : ∀ b ∈ archs, fsLookup (getImagePath p.name p.version b)
      (runPipeline a).1.buildDir = some (.image (a.buildOutput b)) := by
    intro b hb
    rw [hrun]
    show fsLookup _ (saveUploadResultsTask a p _).buildDir = _
    rw [saveTask_buildDir]
    rw [uploadStage_lookup_nonlegacy a p _ _
      (fun he => getLegacyImagePath_ne_getImagePath p.name p.version
        p.name p.version b he.symm)]
    unfold preUploadState
    rw [buildStage_some a p archs hparch]
    exact buildFold_lookup_mem a p archs b hnd hb _
  have hnot : ∀ arch, getArchTag arch ∉ archs.map getArchTag →
      fsLookup (getImagePath p.name p.version arch)
        (runPipeline a).1.buildDir = none := by
    intro arch hna
    rw [hrun]
    show fsLookup _ (saveUploadResultsTask a p _).buildDir = _
    rw [saveTask_buildDir]
    rw [uploadStage_lookup_nonlegacy a p _ _
      (fun he => getLegacyImagePath_ne_getImagePath p.name p.version
        p.name p.version arch he.symm)]
    unfold preUploadState
    rw [buildStage_some a p archs hparch]
    rw [buildFold_lookup_notmem a p archs _
      (fun x hx he => hna (by
        rw [← getImagePath_inj_tag p.name p.version x arch he]
        exact List.mem_map_of_mem _ hx))]
    unfold postCopyState
    rw [copyFiles_lookup_nonasset a p _ _
      (fun hm => (getImagePath_ne_asset p.name p.version arch _ hm) rfl)]
    rw [createReleaseDir_lookup, if_neg]
    intro hm
    unfold expectedImagePaths at hm
    rw [hparch] at hm
    rcases List.mem_map.mp hm with ⟨x, hx, he⟩
    exact hna (by
      rw [← getImagePath_inj_tag p.name p.version x arch he]
      exact List.mem_map_of_mem _ hx)
  refine ⟨by rw [hrun], hmem, ?_, ?_⟩
  · intro arch hsome
    by_contra hna
    rw [hnot arch hna] at hsome
    exact Bool.noConfusion hsome
  · have hall : ∀ f ∈ archs.map (getImagePath p.name p.version),
        (fsLookup f (runPipeline a).1.buildDir).isSome = true := by
      intro f hf
      rcases List.mem_map.mp hf with ⟨b, hb, he⟩
      rw [← he, hmem b hb]
      rfl
    rw [List.filter_eq_self.mpr hall, List.length_map]

/-- A concrete two-architecture IPFS run for the C7 witness. -/
def argsC7 : BuildInputs where
  manifest := { name := "foo", version := "1.0.0", architectures := some ["linux/amd64", "linux/arm64"] }
  buildDirPath := "/pkg/build_1.0.0"
  initialFiles := [("foo_1.0.0_linux-arm.txz", .image "stale-arch"), ("junk.bin", .asset "junk")]

/-- The plan computed by the setup phase for `argsC7`. -/
def planC7 : BuildPlan where
  name := "foo"
  version := "1.0.0"
  architectures := some ["linux/amd64", "linux/arm64"]
  manifestFinal := { name := "foo", version := "1.0.0", architectures := some ["linux/amd64", "linux/arm64"] }
  imagePathAmd := "/pkg/build_1.0.0/foo_1.0.0_linux-amd64.txz"
  imagePathLegacy := "/pkg/build_1.0.0/foo_1.0.0.tar.xz"
  buildDirPath := "/pkg/build_1.0.0"
  uploadToSwarm := false
  skipUpload := false
  ipfsProvider := "dappnode"
  swarmProvider := "dappnode"

/-- Witness for C7: the concrete two-architecture run succeeds with both
declared archives present (each with its own architecture's output), no
archive for the undeclared `linux/arm`, and a present-archive count of
two. -/
theorem c7_witness :
    (runPipeline argsC7).2 = none
    ∧ fsLookup (getImagePath "foo" "1.0.0" "linux/amd64")
        (runPipeline argsC7).1.buildDir = some (.image "image-linux/amd64")
    ∧ fsLookup (getImagePath "foo" "1.0.0" "linux/arm64")
        (runPipeline argsC7).1.buildDir = some (.image "image-linux/arm64")
    ∧ ((["linux/amd64", "linux/arm64"].map (getImagePath "foo" "1.0.0")).filter
        (fun f => (fsLookup f (runPipeline argsC7).1.buildDir).isSome)).length
      = 2 := by
  obtain ⟨h1, h2, h3, h4⟩ :=
    c7_one_archive_per_declared_architecture argsC7 planC7
      ["linux/amd64", "linux/arm64"] rfl rfl rfl (by decide)
  exact ⟨h1, h2 "linux/amd64" (by decide), h2 "linux/arm64" (by decide), h4⟩

/-- Claim C9: a failing `pruneCache` outcome is caught inside the "Save
upload results" task: compared to the same run with a succeeding
`pruneCache`, the run's error outcome, build directory, run context and
release record are identical (so a run whose only failure is cache
pruning still completes successfully), and when the run completes the
caught failure is merely appended to the error log. -/
theorem c9_prune_failure_never_propagates (a : BuildInputs) (e : String)
    (h : a.pruneResult = Except.error e) :
    (runPipeline a).2
        = (runPipeline { a with pruneResult := Except.ok () }).2
    ∧ (runPipeline a).1.buildDir
        = (runPipeline { a with pruneResult := Except.ok () }).1.buildDir
    ∧ (runPipeline a).1.ctx
        = (runPipeline { a with pruneResult := Except.ok () }).1.ctx
    ∧ (runPipeline a).1.record
        = (runPipeline { a with pruneResult := Except.ok () }).1.record
    ∧ ((runPipeline { a with pruneResult := Except.ok () }).2 = none →
        (runPipeline a).1.errorLog
          = (runPipeline { a with pruneResult := Except.ok () }).1.errorLog
            ++ ["Error on pruneCache " ++ e]) := by
  have hsetup : buildAndUploadSetup { a with pruneResult := Except.ok () }
      = buildAndUploadSetup a := rfl
  cases hbs : buildAndUploadSetup a with
  | error er =>
    have r1 : runPipeline a = (initState a, some er) :=
      runPipeline_setup_err a er hbs
    have r2 : runPipeline { a with pruneResult := Except.ok () }
        = (initState { a with pruneResult := Except.ok () }, some er) :=
      runPipeline_setup_err _ er (hsetup.trans hbs)
    have hinit : initState { a with pruneResult := Except.ok () }
        = initState a := rfl
    rw [r1, r2, hinit]
    exact ⟨rfl, rfl, rfl, rfl, fun hc => absurd hc (by simp)⟩
  | ok p =>
    have hbsb : buildAndUploadSetup { a with pruneResult := Except.ok () }
        = .ok p := hsetup.trans hbs
    cases hcp : copyFilesTask a p (createReleaseDirTask p (initState a)) with
    | mk s2 oe =>
      have hcpb : copyFilesTask { a with pruneResult := Except.ok () } p
          (createReleaseDirTask p
            (initState { a with pruneResult := Except.ok () })) = (s2, oe) :=
        hcp
      cases oe with
      | some e' =>
        have r1 : runPipeline a = (s2, some e') := by
          simp only [runPipeline, hbs, hcp]
        have r2 : runPipeline { a with pruneResult := Except.ok () }
            = (s2, some e') := by
          simp only [runPipeline, hbsb, hcpb]
        rw [r1, r2]
        exact ⟨rfl, rfl, rfl, rfl, fun hc => absurd hc (by simp)⟩
      | none =>
        have hstage : uploadStage { a with pruneResult := Except.ok () } p
            (buildStage { a with pruneResult := Except.ok () } p s2)
            = uploadStage a p (buildStage a p s2) := rfl
        have r1 : runPipeline a
            = (saveUploadResultsTask a p
                (uploadStage a p (buildStage a p s2)), none) := by
          simp only [runPipeline, hbs, hcp]
        have r2 : runPipeline { a with pruneResult := Except.ok () }
            = (saveUploadResultsTask { a with pruneResult := Except.ok () } p
                (uploadStage a p (buildStage a p s2)), none) := by
          simp only [runPipeline, hbsb, hcpb, hstage]
        rw [r1, r2]
        refine ⟨rfl, rfl, rfl, rfl, fun _ => ?_⟩
        show (match a.pruneResult with
          | .ok _ => (uploadStage a p (buildStage a p s2)).errorLog
          | .error er => (uploadStage a p (buildStage a p s2)).errorLog
              ++ ["Error on pruneCache " ++ er]) = _
        rw [h]
        rfl

/-- A concrete run whose cache pruning fails. -/
def argsC9 : BuildInputs where
  manifest := { name := "foo", version := "1.0.0" }
  buildDirPath := "/pkg/build_1.0.0"
  pruneResult := Except.error "docker daemon unreachable"

/-- Witness for C9: the concrete run with the failing prune has the same
success outcome as its prune-succeeding twin, and logs the caught
failure. -/
theorem c9_witness :
    argsC9.pruneResult = Except.error "docker daemon unreachable"
    ∧ (runPipeline argsC9).2
        = (runPipeline { argsC9 with pruneResult := Except.ok () }).2
    ∧ ((runPipeline { argsC9 with pruneResult := Except.ok () }).2 = none →
        (runPipeline argsC9).1.errorLog
          = (runPipeline { argsC9 with pruneResult := Except.ok () }).1.errorLog
            ++ ["Error on pruneCache " ++ "docker daemon unreachable"]) := by
  obtain ⟨h1, -, -, -, h5⟩ :=
    c9_prune_failure_never_propagates argsC9 "docker daemon unreachable" rfl
  exact ⟨rfl, h1, h5⟩
